import Mathlib

/-!
# Verification of the ID-card generation engine

Shallow embedding of the card compositing and layout engine of the
repository (files `main.py` and `volunteers.py`, class `IDCardGenerator`).

Conventions of the embedding:
* Python non-negative machine integers are modelled as `ℕ`; where the
  Python code computes `max(0, a - b)` on ints we use truncated `ℕ`
  subtraction, which agrees.
* Python `//` on non-negative ints is `ℕ` division, `%` is `ℕ` mod.
* `int(x * 1.5)` on a non-negative int `x` is `(3 * x) / 2` in `ℕ`
  (the product `x * 1.5` is exact in double precision for every
  realistic image dimension, and `int` truncates toward zero).
* Pixel-width measurement of a text string (`draw.textbbox`, an external
  PIL call) is an arbitrary parameter `w : String → ℕ`.
* Rendered card bitmaps are an arbitrary type parameter; the sheet tiler
  only moves them around.
-/

namespace IDCardGen

/-- A detected face region, in source-photo pixel coordinates, as returned
by `face_recognition.face_locations` (`top, right, bottom, left`). -/
structure FaceBox where
  top : ℕ
  right : ℕ
  bottom : ℕ
  left : ℕ
  deriving DecidableEq, Repr

/-- A crop rectangle `(left, top, right, bottom)` in source-photo pixel
coordinates, as passed to `Image.crop`. -/
structure CropRect where
  left : ℕ
  top : ℕ
  right : ℕ
  bottom : ℕ
  deriving DecidableEq, Repr

/-- The padding around the face box: `padding = int(face_height * 1.5)`
(`volunteers.py` line 106, `main.py` line 94). -/
def facePadding (faceHeight : ℕ) : ℕ := 3 * faceHeight / 2

/-- The clamped crop size
(`volunteers.py` lines 109–112, `main.py` lines 97–100):
`crop_size = max(right - left, bottom - top) + padding * 2`, then
`crop_size = min(crop_size, min(W, H))`. -/
def cropSize (W H : ℕ) (f : FaceBox) : ℕ :=
  min (max (f.right - f.left) (f.bottom - f.top) + facePadding (f.bottom - f.top) * 2)
      (min W H)

/-- The face-centred crop rectangle computed by `create_id_card` when a
face is detected (`volunteers.py` lines 96–121, `main.py` lines 84–109). -/
def faceCrop (W H : ℕ) (f : FaceBox) : CropRect :=
  let face_center_x := (f.left + f.right) / 2
  let face_center_y := (f.top + f.bottom) / 2
  let crop_size := cropSize W H f
  let left := face_center_x - crop_size / 2
  let top := face_center_y - crop_size / 2
  { left := left
    top := top
    right := min W (left + crop_size)
    bottom := min H (top + crop_size) }

/-- Modelled from the spec: the crop rectangle as §4.2 of the spec words
it, with `padding = round(face_h * K)` for K = 1.5 — i.e. rounding
`3·face_h / 2` to the nearest integer (half up; at the inputs used below
`3·face_h` is odd with Python banker's rounding giving the same value) —
instead of the code's truncating `int(...)`.  Everything else follows
`faceCrop`. -/
def faceCropSpec (W H : ℕ) (f : FaceBox) : CropRect :=
  let face_center_x := (f.left + f.right) / 2
  let face_center_y := (f.top + f.bottom) / 2
  let padding := (3 * (f.bottom - f.top) + 1) / 2
  let crop_size :=
    min (max (f.right - f.left) (f.bottom - f.top) + padding * 2) (min W H)
  let left := face_center_x - crop_size / 2
  let top := face_center_y - crop_size / 2
  { left := left
    top := top
    right := min W (left + crop_size)
    bottom := min H (top + crop_size) }

/-- The centred-square fallback crop used when no face is detected
(`volunteers.py` lines 122–130, `main.py` lines 110–118). -/
def centerCrop (W H : ℕ) : CropRect :=
  let size := min W H
  let left := (W - size) / 2
  let top := (H - size) / 2
  { left := left, top := top, right := left + size, bottom := top + size }

/-- The crop rectangle chosen by `create_id_card` given the (optional
first) detected face. -/
def cropBox (W H : ℕ) (face : Option FaceBox) : CropRect :=
  match face with
  | some f => faceCrop W H f
  | none => centerCrop W H

/-- Name font scale factor of the volunteers variant
(`volunteers.py` lines 171–181). -/
def nameScale_volunteers (len : ℕ) : ℚ :=
  if len ≤ 13 then 1
  else if len ≤ 15 then 85 / 100
  else if len ≤ 19 then 80 / 100
  else 65 / 100

/-- Name font scale factor of the main variant
(`main.py` lines 159–169). -/
def nameScale_main (len : ℕ) : ℚ :=
  if len ≤ 13 then 1
  else if len ≤ 15 then 85 / 100
  else if len ≤ 17 then 80 / 100
  else 70 / 100

/-- Selection from an ordered breakpoint table: the factor of the first
tier whose threshold is not exceeded, else the catch-all factor. -/
def selectScale : List (ℕ × ℚ) → ℚ → ℕ → ℚ
  | [], dflt, _ => dflt
  | (t, s) :: rest, dflt, len => if len ≤ t then s else selectScale rest dflt len

/-- Python `' '.join(words)`. -/
def joinWords : List String → String
  | [] => ""
  | [word] => word
  | word :: next :: rest => word ++ " " ++ joinWords (next :: rest)

/-- Splitting a character list at every whitespace character; runs of
whitespace yield empty pieces, removed by `pySplit` below. -/
def splitWsAux : List Char → List Char → List (List Char)
  | cur, [] => [cur.reverse]
  | cur, c :: rest =>
    if c.isWhitespace then cur.reverse :: splitWsAux [] rest
    else splitWsAux (c :: cur) rest

/-- Python `text.split()`: split on runs of whitespace, dropping empty
pieces. -/
def pySplit (s : String) : List String :=
  ((splitWsAux [] s.data).filter fun word => word ≠ []).map fun word => String.mk word

/-- The loop of `wrap_text` (`volunteers.py` lines 243–260), carried out
on word lists: each produced line is kept as its list of words (the code
stores `' '.join` of that list; `wrap_text` below applies the join).
`w` models the external pixel-width measurement
`draw.textbbox((0,0), line, font)[2] - bbox[0]`. -/
def wrapLoop (w : String → ℕ) (maxW : ℕ) : List String → List String → List (List String)
  | cur, [] => if cur.isEmpty then [] else [cur]
  | cur, word :: rest =>
    if maxW < w (joinWords (cur ++ [word])) then
      if 1 < (cur ++ [word]).length then
        cur :: wrapLoop w maxW [word] rest
      else
        [word] :: wrapLoop w maxW [] rest
    else
      wrapLoop w maxW (cur ++ [word]) rest

/-- `wrap_text(text, font, max_width)` (`volunteers.py` lines 236–261):
split into words, run the greedy wrap loop, join each produced word list
with single spaces. -/
def wrap_text (w : String → ℕ) (maxW : ℕ) (text : String) : List String :=
  (wrapLoop w maxW [] (pySplit text)).map joinWords

/-! ## Photo layer compositing (`volunteers.py` lines 146–161,
`main.py` lines 134–149) -/

/-- An 8-bit single-channel (mode `'L'`) bitmap. -/
structure GrayImage where
  width : ℕ
  height : ℕ
  pix : ℕ → ℕ → ℕ

/-- An RGBA bitmap: per-pixel colour and alpha. -/
structure RGBAImage where
  width : ℕ
  height : ℕ
  color : ℕ → ℕ → ℕ × ℕ × ℕ
  alpha : ℕ → ℕ → ℕ

/-- The target photo size, default argument `photo_size=(512, 512)` of
`create_id_card`. -/
def photo_size : ℕ × ℕ := (512, 512)

/-- The photo anchor, default argument `photo_position=(384, 700)` of
`create_id_card`. -/
def photo_position : ℕ × ℕ := (384, 700)

/-- `Image.new('L', photo_size, 0)` followed by
`mask_draw.ellipse((0, 0, w, h), fill=255)`.  The external PIL ellipse
fill is modelled mathematically: pixel `(x, y)` is set to 255 iff it
lies inside or on the ellipse inscribed in the box `[0,w] × [0,h]`
(centre `(w/2, h/2)`, semi-axes `w/2`, `h/2`), written without
fractions as `h²(2x−w)² + w²(2y−h)² ≤ w²h²`; a hard edge, no
anti-aliasing. -/
def circularMask (size : ℕ × ℕ) : GrayImage :=
  { width := size.1
    height := size.2
    pix := fun x y =>
      if (size.2 : ℤ) ^ 2 * (2 * x - size.1) ^ 2 + (size.1 : ℤ) ^ 2 * (2 * y - size.2) ^ 2
           ≤ (size.1 : ℤ) ^ 2 * (size.2 : ℤ) ^ 2
      then 255 else 0 }

/-- `output = Image.new('RGBA', photo_size, (0,0,0,0))`,
`output.paste(profile_photo, (0, 0))`, `output.putalpha(mask)`:
the resized square photo with the circular mask as its alpha channel.
`photo` is the pixel data of the already-resized square photo. -/
def photoLayer (photo : ℕ → ℕ → ℕ × ℕ × ℕ) (size : ℕ × ℕ) : RGBAImage :=
  { width := size.1
    height := size.2
    color := photo
    alpha := (circularMask size).pix }

/-- The top-left paste position of the photo layer on the card:
`(photo_position[0] - photo_size[0]//2, photo_position[1] - photo_size[1]//2)`. -/
def pastePos : ℕ × ℕ :=
  (photo_position.1 - photo_size.1 / 2, photo_position.2 - photo_size.2 / 2)

/-! ## Sheet tiling (`volunteers.py` lines 32–62, `main.py` lines 30–59)
and the batch driver (`volunteers.py` lines 328–343,
`main.py` lines 234–245) -/

/-- `self.a4_width = 3900`. -/
def a4_width : ℕ := 3900

/-- `self.a4_height = 5700`. -/
def a4_height : ℕ := 5700

/-- `self.card_base_width = 768`. -/
def card_base_width : ℕ := 768

/-- `self.card_base_height = 1299`. -/
def card_base_height : ℕ := 1299

/-- `self.horizontal_padding = (a4_width - card_base_width * 5) // 6`. -/
def horizontal_padding : ℕ := (a4_width - card_base_width * 5) / 6

/-- `self.vertical_padding = (a4_height - card_base_height * 4) // 5`. -/
def vertical_padding : ℕ := (a4_height - card_base_height * 4) / 5

/-- `self.template_width = card_base_width`. -/
def template_width : ℕ := card_base_width

/-- `self.template_height = card_base_height`. -/
def template_height : ℕ := card_base_height

/-- The pixel position of grid slot `idx`:
`row = idx // 5`, `col = idx % 5`,
`x = horizontal_padding + col * (template_width + horizontal_padding)`,
`y = vertical_padding + row * (template_height + vertical_padding)`. -/
def cardPos (idx : ℕ) : ℕ × ℕ :=
  (horizontal_padding + idx % 5 * (template_width + horizontal_padding),
   vertical_padding + idx / 5 * (template_height + vertical_padding))

/-- The paste events of the loop of `create_id_cards_sheet`: the batch
element at index `idx` either rendered to a card bitmap (`some`) or
failed (`none`, the code's falsy `card`); the loop `break`s at index 20
and pastes each rendered card at its grid position. -/
def sheetLoop {α : Type} : ℕ → List (Option α) → List ((ℕ × ℕ) × α)
  | _, [] => []
  | idx, card :: rest =>
    if 20 ≤ idx then []
    else
      match card with
      | some c => (cardPos idx, c) :: sheetLoop (idx + 1) rest
      | none => sheetLoop (idx + 1) rest

/-- `create_id_cards_sheet(students_data)` as its list of paste events
(position, card bitmap) onto the blank A4 sheet. -/
def create_id_cards_sheet {α : Type} (cards : List (Option α)) : List ((ℕ × ℕ) × α) :=
  sheetLoop 0 cards

/-- `num_sheets = (len(df) + 19) // 20` of the batch driver. -/
def num_sheets (n : ℕ) : ℕ := (n + 19) / 20

/-- The roster slice handed to sheet `k` (0-indexed):
`df[sheet_num*20 : sheet_num*20 + 20]`. -/
def sheetRows {ρ : Type} (roster : List ρ) (k : ℕ) : List ρ :=
  (roster.drop (20 * k)).take 20

/-- The `try/except` body of `create_id_card`: any exception raised
while rendering (`Except.error`) is caught and turned into `None`
(`volunteers.py` lines 307–309, `main.py` lines 220–222). -/
def create_id_card_result {ρ ε α : Type} (body : ρ → Except ε α) (r : ρ) : Option α :=
  match body r with
  | .ok c => some c
  | .error _ => none

/-! ## Ministry badge geometry (`volunteers.py` lines 263–294) -/

/-- `zone_font_size = int(self.template_height * 0.032)` (= 41). -/
def zone_font_size : ℕ := template_height * 32 / 1000

/-- `max_text_width = self.template_width - 100`. -/
def max_text_width : ℕ := template_width - 100

/-- `line_height = zone_font_size * 1.2`; the Python float is modelled
as the exact rational (the +3 discrepancy established below dwarfs any
double-rounding error). -/
def line_height : ℚ := (zone_font_size : ℚ) * (12 / 10)

/-- `ministry_padding = 30`. -/
def ministry_padding : ℕ := 30

/-- The geometry of the ministry badge. -/
structure MinistryBadge where
  lines : List String
  rectWidth : ℕ
  rectHeight : ℚ

/-- The ministry badge computed by `create_id_card`
(`volunteers.py` lines 263–294): wrap the text, find the widest line
(the loop folding `max` from 0), set
`rect_width = widest + ministry_padding * 2` and
`rect_height = len(lines) * line_height + 3`. -/
def ministryBadge (w : String → ℕ) (maxW : ℕ) (ministry : String) : MinistryBadge :=
  let lines := wrap_text w maxW ministry
  { lines := lines
    rectWidth := lines.foldl (fun acc line => max acc (w line)) 0 + ministry_padding * 2
    rectHeight := (lines.length : ℚ) * line_height + 3 }

/-! ## Input coercion of the volunteers variant
(`volunteers.py` lines 70–74 and 236–239) -/

/-- A roster cell value as handed to `create_id_card`: a string, a
number, or a float NaN (what `pandas` yields for a blank cell). -/
inductive PyVal where
  | str : String → PyVal
  | int : ℤ → PyVal
  | nan : PyVal
  deriving DecidableEq

/-- Python `str()` on a roster cell value. -/
def pyStr : PyVal → String
  | .str s => s
  | .int n => toString n
  | .nan => "nan"

/-- The text content drawn on a volunteers card. -/
structure CardText where
  nameText : String
  nameScale : ℚ
  badgeText : String
  ministryLines : List String
  deriving DecidableEq

/-- The text layer of the volunteers `create_id_card`: the three inputs
are first coerced with `str()` (`volunteers.py` lines 71–74); the zone
is coerced but then replaced by the literal `"Volunteer"` (line 203);
the ministry is word-wrapped. -/
def cardTextLayer (w : String → ℕ) (name zone ministry : PyVal) : CardText :=
  let nameS := pyStr name
  let _zoneS := pyStr zone
  let ministryS := pyStr ministry
  { nameText := nameS
    nameScale := nameScale_volunteers nameS.length
    badgeText := "Volunteer"
    ministryLines := wrap_text w max_text_width ministryS }

end IDCardGen

namespace IDCardGen

/-- C8: With no detected face the crop is exactly the centred square of
side `min W H`: origin `((W - min W H) / 2, (H - min W H) / 2)` and both
width and height equal to `min W H`. -/
theorem centerCrop_is_centered_square (W H : ℕ) :
    (cropBox W H none).left = (W - min W H) / 2 ∧
    (cropBox W H none).top = (H - min W H) / 2 ∧
    (cropBox W H none).right - (cropBox W H none).left = min W H ∧
    (cropBox W H none).bottom - (cropBox W H none).top = min W H := by
  refine ⟨rfl, rfl, ?_, ?_⟩ <;> simp [cropBox, centerCrop]

/-- C1 counterexample: at a 100×100 photo with face box
`{top 10, right 11, bottom 11, left 10}` (face height 1) the code's crop
(`padding = int(1.5 * 1) = 1`) differs from the spec's rounded-padding
crop (`padding = round(1.5 * 1) = 2`). -/
theorem faceCrop_ne_roundedSpec :
    faceCrop 100 100 ⟨10, 11, 11, 10⟩ ≠ faceCropSpec 100 100 ⟨10, 11, 11, 10⟩ ∧
    faceCrop 100 100 ⟨10, 11, 11, 10⟩ = ⟨9, 9, 12, 12⟩ ∧
    faceCropSpec 100 100 ⟨10, 11, 11, 10⟩ = ⟨8, 8, 13, 13⟩ := by
  decide

/-- C1 (amended): the face crop uses truncated padding
`padding = int(face_h * 1.5) = ⌊3·face_h / 2⌋` (not rounded);
`crop_size = max(face_w, face_h) + 2·padding` clamped to `min W H`;
origin is the face centre minus `crop_size / 2`, clamped at `0`
(truncated `ℕ` subtraction); extent is origin plus `crop_size`, clamped
to the image — so near image borders the crop may be narrower than
`crop_size` without recentering (last conjunct exhibits such a case). -/
theorem faceCrop_characterization (W H : ℕ) (f : FaceBox) :
    cropSize W H f
      = min (max (f.right - f.left) (f.bottom - f.top) + 2 * (3 * (f.bottom - f.top) / 2))
          (min W H) ∧
    (faceCrop W H f).left = (f.left + f.right) / 2 - cropSize W H f / 2 ∧
    (faceCrop W H f).top = (f.top + f.bottom) / 2 - cropSize W H f / 2 ∧
    (faceCrop W H f).right = min W ((faceCrop W H f).left + cropSize W H f) ∧
    (faceCrop W H f).bottom = min H ((faceCrop W H f).top + cropSize W H f) ∧
    (faceCrop 100 100 ⟨95, 99, 99, 95⟩).right - (faceCrop 100 100 ⟨95, 99, 99, 95⟩).left
      < cropSize 100 100 ⟨95, 99, 99, 95⟩ := by
  refine ⟨?_, rfl, rfl, rfl, rfl, by decide⟩
  simp [cropSize, facePadding, Nat.mul_comm]

/-- C3 counterexample: for a name of length 20 the `create_id_card` of
`main.py` selects scale factor 0.70, not the claimed 0.65. -/
theorem nameScale_main_at_20_ne_claim :
    nameScale_main 20 = 70 / 100 ∧ (70 : ℚ) / 100 ≠ 65 / 100 := by
  constructor
  · simp [nameScale_main]
  · norm_num

/-- C3 (amended): the volunteers variant follows the breakpoint table
`{≤13 → 1.0, 14–15 → 0.85, 16–19 → 0.80, else → 0.65}` (so a name of
length 20 gets 0.65), while the main variant follows
`{≤13 → 1.0, 14–15 → 0.85, 16–17 → 0.80, else → 0.70}` (so a name of
length 20 gets 0.70). -/
theorem nameScale_follows_breakpoints :
    (∀ len, nameScale_volunteers len
      = selectScale [(13, 1), (15, 85 / 100), (19, 80 / 100)] (65 / 100) len) ∧
    nameScale_volunteers 20 = 65 / 100 ∧
    (∀ len, nameScale_main len
      = selectScale [(13, 1), (15, 85 / 100), (17, 80 / 100)] (70 / 100) len) ∧
    nameScale_main 20 = 70 / 100 := by
  refine ⟨fun len => ?_, by simp [nameScale_volunteers], fun len => ?_,
    by simp [nameScale_main]⟩ <;>
    simp [nameScale_volunteers, nameScale_main, selectScale]

/-- `' '.join` of a cons with a nonempty tail. -/
theorem joinWords_cons (x : String) (b : List String) (hb : b ≠ []) :
    joinWords (x :: b) = x ++ " " ++ joinWords b := by
  cases b with
  | nil => exact absurd rfl hb
  | cons y ys => rfl

/-- `' '.join` distributes over the append of nonempty word lists. -/
theorem joinWords_append : ∀ a b : List String, a ≠ [] → b ≠ [] →
    joinWords (a ++ b) = joinWords a ++ " " ++ joinWords b := by
  intro a
  induction a with
  | nil => exact fun b ha _ => absurd rfl ha
  | cons x a2 ih =>
    intro b _ hb
    cases a2 with
    | nil => simpa using joinWords_cons x b hb
    | cons z zs =>
      have h2 := ih b (by simp) hb
      have h1 : joinWords ((x :: z :: zs) ++ b) = x ++ " " ++ joinWords ((z :: zs) ++ b) := by
        simp only [List.cons_append]
        exact joinWords_cons x _ (by simp)
      rw [h1, h2, joinWords_cons x (z :: zs) (by simp)]
      simp [String.append_assoc]

/-- Every line produced by the wrap loop is a nonempty word list. -/
theorem wrapLoop_ne_nil (w : String → ℕ) (maxW : ℕ) :
    ∀ words cur : List String, ∀ l ∈ wrapLoop w maxW cur words, l ≠ [] := by
  intro words
  induction words with
  | nil =>
    intro cur l hl
    by_cases h : cur.isEmpty
    · simp [wrapLoop, h] at hl
    · simp [wrapLoop, h] at hl
      subst hl
      simpa [List.isEmpty_iff] using h
  | cons word rest ih =>
    intro cur l hl
    simp only [wrapLoop] at hl
    split_ifs at hl with hover hlen
    · rcases List.mem_cons.mp hl with rfl | hmem
      · intro hnil
        subst hnil
        simp at hlen
      · exact ih [word] l hmem
    · rcases List.mem_cons.mp hl with rfl | hmem
      · simp
      · exact ih [] l hmem
    · exact ih (cur ++ [word]) l hl

/-- Flattening the wrap loop's lines recovers the pending line followed
by the remaining words. -/
theorem wrapLoop_flatten (w : String → ℕ) (maxW : ℕ) :
    ∀ words cur : List String, (wrapLoop w maxW cur words).flatten = cur ++ words := by
  intro words
  induction words with
  | nil =>
    intro cur
    by_cases h : cur.isEmpty
    · have : cur = [] := by simpa [List.isEmpty_iff] using h
      simp [wrapLoop, h, this]
    · simp [wrapLoop, h]
  | cons word rest ih =>
    intro cur
    simp only [wrapLoop]
    split_ifs with hover hlen
    · simp [ih [word]]
    · have hc : cur = [] := by
        cases cur with
        | nil => rfl
        | cons a as => simp at hlen
      subst hc
      simp [ih []]
    · rw [ih (cur ++ [word])]
      simp

/-- Any line the wrap loop produces either is a single word or fits the
width budget, provided the pending line already does. -/
theorem wrapLoop_width (w : String → ℕ) (maxW : ℕ) :
    ∀ words cur : List String, (2 ≤ cur.length → w (joinWords cur) ≤ maxW) →
      ∀ l ∈ wrapLoop w maxW cur words, l.length = 1 ∨ w (joinWords l) ≤ maxW := by
  intro words
  induction words with
  | nil =>
    intro cur hcur l hl
    by_cases h : cur.isEmpty
    · simp [wrapLoop, h] at hl
    · simp [wrapLoop, h] at hl
      subst hl
      rcases Nat.lt_or_ge l.length 2 with h2 | h2
      · left
        have hne : l ≠ [] := by simpa [List.isEmpty_iff] using h
        have : 1 ≤ l.length := List.length_pos.mpr hne
        omega
      · exact Or.inr (hcur h2)
  | cons word rest ih =>
    intro cur hcur l hl
    simp only [wrapLoop] at hl
    split_ifs at hl with hover hlen
    · rcases List.mem_cons.mp hl with rfl | hmem
      · rcases Nat.lt_or_ge l.length 2 with h2 | h2
        · left
          have hne : l ≠ [] := by
            intro hnil
            subst hnil
            simp at hlen
          have : 1 ≤ l.length := List.length_pos.mpr hne
          omega
        · exact Or.inr (hcur h2)
      · exact ih [word] (by intro h2; simp at h2) l hmem
    · rcases List.mem_cons.mp hl with rfl | hmem
      · left
        rfl
      · exact ih [] (by intro h2; simp at h2) l hmem
    · exact ih (cur ++ [word]) (fun _ => Nat.not_lt.mp hover) l hl

/-- Joining the `' '.join`ed lines of a list of nonempty word lists with
single spaces equals joining all the words. -/
theorem joinWords_map_flatten :
    ∀ L : List (List String), (∀ l ∈ L, l ≠ []) →
      joinWords (L.map joinWords) = joinWords L.flatten := by
  intro L
  induction L with
  | nil => intro _; rfl
  | cons l M ih =>
    intro h
    cases M with
    | nil => simp [joinWords]
    | cons m M2 =>
      have hl : l ≠ [] := h l (by simp)
      have hm : m ≠ [] := h m (by simp)
      have hflat : (List.flatten (m :: M2)) ≠ [] := by
        simp only [List.flatten_cons]
        intro hc
        exact hm (List.append_eq_nil.mp hc).1
      have htail : ∀ l2 ∈ m :: M2, l2 ≠ [] := fun l2 hl2 => h l2 (List.mem_cons_of_mem _ hl2)
      calc joinWords ((l :: m :: M2).map joinWords)
          = joinWords l ++ " " ++ joinWords ((m :: M2).map joinWords) := by
            exact joinWords_cons _ _ (by simp)
        _ = joinWords l ++ " " ++ joinWords (List.flatten (m :: M2)) := by rw [ih htail]
        _ = joinWords (l ++ List.flatten (m :: M2)) :=
            (joinWords_append l _ hl hflat).symm
        _ = joinWords (List.flatten (l :: m :: M2)) := by simp

/-- C2: (a) joining the lines of `wrap_text` with single spaces equals
the whitespace-normalized input (its words joined by single spaces);
the produced lines are the `' '.join`s of the wrap loop's word lists,
and (b) every such line either consists of exactly one word or has
measured pixel width within the maximum. -/
theorem wrap_text_reconstructs_and_fits (w : String → ℕ) (maxW : ℕ) (text : String) :
    joinWords (wrap_text w maxW text) = joinWords (pySplit text) ∧
    wrap_text w maxW text = (wrapLoop w maxW [] (pySplit text)).map joinWords ∧
    ∀ l ∈ wrapLoop w maxW [] (pySplit text), l.length = 1 ∨ w (joinWords l) ≤ maxW := by
  refine ⟨?_, rfl, wrapLoop_width w maxW (pySplit text) [] (by intro h2; simp at h2)⟩
  rw [wrap_text, joinWords_map_flatten _ (wrapLoop_ne_nil w maxW (pySplit text) []),
    wrapLoop_flatten w maxW (pySplit text) []]
  rfl

/-- C2 witness: a concrete run — width = character count, budget 5,
text `"aa bb cc"` wraps to `["aa bb", "cc"]`; the joined lines rebuild
the input and the two-word line `["aa", "bb"]` fits the budget. -/
theorem wrap_text_reconstructs_and_fits_witness :
    joinWords (wrap_text String.length 5 "aa bb cc") = "aa bb cc" ∧
    (["aa", "bb"].length = 1 ∨ String.length (joinWords ["aa", "bb"]) ≤ 5) := by
  constructor
  · exact ((wrap_text_reconstructs_and_fits String.length 5 "aa bb cc").1).trans (by decide)
  · exact (wrap_text_reconstructs_and_fits String.length 5 "aa bb cc").2.2
      ["aa", "bb"] (by decide)

/-- C4: the circular mask and the composited RGBA photo layer are both
exactly 512×512 (the target photo size); every pixel strictly inside the
inscribed circle (centre (256, 256), radius 256) has alpha 255 and every
pixel strictly outside it has alpha 0; the layer is pasted at
`anchor - size/2 = (128, 444)`, so the anchor marks its centre. -/
theorem photoLayer_shape_mask_position (photo : ℕ → ℕ → ℕ × ℕ × ℕ) :
    (circularMask photo_size).width = 512 ∧
    (circularMask photo_size).height = 512 ∧
    (photoLayer photo photo_size).width = 512 ∧
    (photoLayer photo photo_size).height = 512 ∧
    (∀ x y : ℕ, ((x : ℤ) - 256) ^ 2 + ((y : ℤ) - 256) ^ 2 < 256 ^ 2 →
      (photoLayer photo photo_size).alpha x y = 255) ∧
    (∀ x y : ℕ, 256 ^ 2 < ((x : ℤ) - 256) ^ 2 + ((y : ℤ) - 256) ^ 2 →
      (photoLayer photo photo_size).alpha x y = 0) ∧
    pastePos = (photo_position.1 - photo_size.1 / 2, photo_position.2 - photo_size.2 / 2) ∧
    pastePos = (128, 444) := by
  refine ⟨rfl, rfl, rfl, rfl, ?_, ?_, rfl, rfl⟩
  · intro x y h
    simp only [photoLayer, circularMask, photo_size]
    split
    · rfl
    · next hneg =>
      refine absurd ?_ hneg
      push_cast
      nlinarith [h]
  · intro x y h
    simp only [photoLayer, circularMask, photo_size]
    split
    · next hpos =>
      exfalso
      push_cast at hpos
      nlinarith [h, hpos]
    · rfl

/-- C4 witness: the centre pixel (256, 256) is opaque and the corner
pixel (0, 0) is transparent. -/
theorem photoLayer_shape_mask_position_witness :
    (photoLayer (fun _ _ => (0, 0, 0)) photo_size).alpha 256 256 = 255 ∧
    (photoLayer (fun _ _ => (0, 0, 0)) photo_size).alpha 0 0 = 0 := by
  refine ⟨(photoLayer_shape_mask_position (fun _ _ => (0, 0, 0))).2.2.2.2.1 256 256 (by norm_num),
    (photoLayer_shape_mask_position (fun _ _ => (0, 0, 0))).2.2.2.2.2.1 0 0 (by norm_num)⟩

/-- A paste event of the sheet loop started at index `idx` corresponds
exactly to a rendered card at some offset `k` with `idx + k` below the
capacity 20, placed at that slot's grid position. -/
theorem sheetLoop_mem_iff {α : Type} :
    ∀ (cards : List (Option α)) (idx : ℕ) (pos : ℕ × ℕ) (c : α),
      (pos, c) ∈ sheetLoop idx cards ↔
        ∃ k, idx + k < 20 ∧ cards[k]? = some (some c) ∧ pos = cardPos (idx + k) := by
  intro cards
  induction cards with
  | nil =>
    intro idx pos c
    simp [sheetLoop]
  | cons card rest ih =>
    intro idx pos c
    simp only [sheetLoop]
    split_ifs with h20
    · constructor
      · intro h
        simp at h
      · rintro ⟨k, hk, -, -⟩
        omega
    · cases card with
      | some c0 =>
        rw [List.mem_cons, ih (idx + 1) pos c]
        constructor
        · rintro (heq | ⟨k, hk, hg, hp⟩)
          · rw [Prod.mk.injEq] at heq
            obtain ⟨rfl, rfl⟩ := heq
            exact ⟨0, by omega, by simp, by simp⟩
          · exact ⟨k + 1, by omega, by simpa using hg, by rw [hp]; exact congrArg cardPos (by omega)⟩
        · rintro ⟨k, hk, hg, hp⟩
          cases k with
          | zero =>
            simp only [List.getElem?_cons_zero, Option.some.injEq] at hg
            left
            rw [hp, hg, Nat.add_zero]
          | succ k2 =>
            right
            refine ⟨k2, by omega, by simpa using hg, by rw [hp]; exact congrArg cardPos (by omega)⟩
      | none =>
        rw [ih (idx + 1) pos c]
        constructor
        · rintro ⟨k, hk, hg, hp⟩
          exact ⟨k + 1, by omega, by simpa using hg, by rw [hp]; exact congrArg cardPos (by omega)⟩
        · rintro ⟨k, hk, hg, hp⟩
          cases k with
          | zero => simp at hg
          | succ k2 =>
            refine ⟨k2, by omega, by simpa using hg, by rw [hp]; exact congrArg cardPos (by omega)⟩

/-- Grid positions of distinct slots below the capacity differ. -/
theorem cardPos_inj (i j : ℕ) (hi : i < 20) (hj : j < 20) (h : cardPos i = cardPos j) :
    i = j := by
  simp only [cardPos, horizontal_padding, vertical_padding, template_width, template_height,
    a4_width, a4_height, card_base_width, card_base_height, Prod.mk.injEq] at h
  omega

/-- C5: a card is pasted by `create_id_cards_sheet` at a position iff it
is the rendered batch element of an index `i` below the capacity 20, and
the position is row `i / 5`, column `i % 5`, at pixel
`(h_pad + col·(card_w + h_pad), v_pad + row·(card_h + v_pad))`; batch
elements with index ≥ 20 are never pasted. -/
theorem sheet_grid_placement {α : Type} (cards : List (Option α)) (pos : ℕ × ℕ) (c : α) :
    (pos, c) ∈ create_id_cards_sheet cards ↔
      ∃ i, i < 20 ∧ cards[i]? = some (some c) ∧
        pos = (horizontal_padding + i % 5 * (template_width + horizontal_padding),
               vertical_padding + i / 5 * (template_height + vertical_padding)) := by
  rw [create_id_cards_sheet, sheetLoop_mem_iff]
  constructor
  · rintro ⟨k, hk, hg, hp⟩
    exact ⟨k, by omega, hg, by simpa [cardPos] using hp⟩
  · rintro ⟨i, hi, hg, hp⟩
    exact ⟨i, by omega, hg, by simpa [cardPos] using hp⟩

/-- C5 witness: in the batch `[some "a", none, some "b"]` the card of
index 2 is pasted at column 2, row 0, i.e. pixel (1566, 100). -/
theorem sheet_grid_placement_witness :
    ((1566, 100), "b") ∈ create_id_cards_sheet [some "a", none, some "b"] := by
  exact (sheet_grid_placement [some "a", none, some "b"] (1566, 100) "b").mpr
    ⟨2, by omega, by decide, by decide⟩

/-- C7: any exception in the card render body yields the failure value
`None` rather than propagating; on a batch whose element `j` failed,
the sheet leaves slot `j` blank (nothing is pasted at its grid
position), the other batch elements are unchanged by the failure, and
every other rendered element below the capacity is still pasted at its
own grid position. -/
theorem card_failure_contained {ρ ε α : Type} (body : ρ → Except ε α) (r : ρ) (e : ε)
    (cards : List (Option α)) (j : ℕ) (hj : j < 20) :
    (body r = .error e → create_id_card_result body r = none) ∧
    (∀ c : α, (cardPos j, c) ∉ create_id_cards_sheet (cards.set j none)) ∧
    (∀ (i : ℕ) (c : α), i ≠ j → cards[i]? = some (some c) →
      (cards.set j none)[i]? = some (some c)) ∧
    (∀ (i : ℕ) (c : α), i < 20 → (cards.set j none)[i]? = some (some c) →
      (cardPos i, c) ∈ create_id_cards_sheet (cards.set j none)) := by
  refine ⟨?_, ?_, ?_, ?_⟩
  · intro h
    simp [create_id_card_result, h]
  · intro c hmem
    rw [create_id_cards_sheet, sheetLoop_mem_iff] at hmem
    obtain ⟨k, hk, hg, hp⟩ := hmem
    have hjk : j = 0 + k := cardPos_inj j (0 + k) hj (by omega) hp
    have hkj : k = j := by omega
    rw [hkj] at hg
    rcases Nat.lt_or_ge j cards.length with hlen | hlen
    · simp [hlen] at hg
    · have hnone : (cards.set j none)[j]? = none :=
        List.getElem?_eq_none (by simpa using hlen)
      rw [hnone] at hg
      exact Option.noConfusion hg
  · intro i c hne hg
    rw [List.getElem?_set_ne (Ne.symm hne)]
    exact hg
  · intro i c hi hg
    rw [create_id_cards_sheet, sheetLoop_mem_iff]
    exact ⟨i, by omega, hg, by rw [Nat.zero_add]⟩

/-- C7 witness: a concrete failing render returns `None`; in the batch
`[some 0, some 1, some 2]` with element 1 failed, slot 1 gets no paste
while the sibling card 2 is still pasted at its own slot. -/
theorem card_failure_contained_witness :
    create_id_card_result (fun _ : Unit => (Except.error "boom" : Except String ℕ)) () = none ∧
    (cardPos 1, 5) ∉ create_id_cards_sheet ([some 0, some 1, some 2].set 1 none) ∧
    (cardPos 2, 2) ∈ create_id_cards_sheet ([some 0, some 1, some 2].set 1 none) := by
  obtain ⟨h1, h2, h3, h4⟩ :=
    card_failure_contained (fun _ : Unit => (Except.error "boom" : Except String ℕ)) () "boom"
      [some 0, some 1, some 2] 1 (by omega)
  exact ⟨h1 rfl, h2 5, h4 2 2 (by omega) (by decide)⟩

/-- When every batch element rendered, the sheet pastes one card per
element up to the capacity 20. -/
theorem sheetLoop_length_all_some {α : Type} :
    ∀ (cards : List (Option α)) (idx : ℕ), (∀ c ∈ cards, c.isSome) →
      (sheetLoop idx cards).length = min cards.length (20 - idx) := by
  intro cards
  induction cards with
  | nil =>
    intro idx _
    simp [sheetLoop]
  | cons card rest ih =>
    intro idx hall
    simp only [sheetLoop]
    split_ifs with h20
    · simp only [List.length_nil, List.length_cons]
      omega
    · cases card with
      | some c0 =>
        simp only [List.length_cons]
        rw [ih (idx + 1) fun c hc => hall c (List.mem_cons_of_mem _ hc)]
        omega
      | none =>
        have := hall none (by simp)
        simp at this

/-- C6: a roster of 23 rows at capacity 20 yields exactly
`ceil(23/20) = 2` sheets; the second sheet's slice holds the remaining
3 rows, and (all of them rendering) exactly 3 slots are populated,
leaving `20 - 3 = 17` slots blank. -/
theorem batch_of_23_gives_two_sheets {α : Type} (cards : List (Option α))
    (hlen : cards.length = 23) (hall : ∀ c ∈ cards, c.isSome) :
    num_sheets cards.length = 2 ∧
    (sheetRows cards 1).length = 3 ∧
    (create_id_cards_sheet (sheetRows cards 1)).length = 3 ∧
    20 - (create_id_cards_sheet (sheetRows cards 1)).length = 17 := by
  have h2 : (sheetRows cards 1).length = 3 := by
    simp [sheetRows, hlen]
  have h3 : (create_id_cards_sheet (sheetRows cards 1)).length = 3 := by
    rw [create_id_cards_sheet,
      sheetLoop_length_all_some (sheetRows cards 1) 0
        fun c hc => hall c (List.drop_subset _ _ (List.take_subset _ _ hc)), h2]
    omega
  exact ⟨by rw [hlen]; decide, h2, h3, by rw [h3]⟩

/-- C6 witness: 23 successfully rendered cards give 2 sheets and a
second sheet with exactly 3 populated slots. -/
theorem batch_of_23_gives_two_sheets_witness :
    num_sheets (List.replicate 23 (some (0 : ℕ))).length = 2 ∧
    (create_id_cards_sheet (sheetRows (List.replicate 23 (some (0 : ℕ))) 1)).length = 3 := by
  obtain ⟨h1, -, h3, -⟩ :=
    batch_of_23_gives_two_sheets (List.replicate 23 (some (0 : ℕ))) (by decide) (by decide)
  exact ⟨h1, h3⟩

/-- C9 counterexample: with a width measure returning 0 and ministry
text `"A"` (a single wrapped line), the badge height drawn by the code
is `1·line_height + 3 = 52.2`, not the claimed sum of line heights
`1·line_height = 49.2`. -/
theorem ministryBadge_height_ne_sum_of_line_heights :
    (ministryBadge (fun _ => 0) max_text_width "A").lines = ["A"] ∧
    (ministryBadge (fun _ => 0) max_text_width "A").rectHeight = 261 / 5 ∧
    ((ministryBadge (fun _ => 0) max_text_width "A").lines.length : ℚ) * line_height = 246 / 5 ∧
    (261 : ℚ) / 5 ≠ 246 / 5 := by
  have hlines : wrap_text (fun _ => 0) max_text_width "A" = ["A"] := by decide
  refine ⟨hlines, ?_, ?_, by norm_num⟩
  · show ((wrap_text (fun _ => 0) max_text_width "A").length : ℚ) * line_height + 3 = 261 / 5
    rw [hlines]
    norm_num [line_height, zone_font_size, template_height, card_base_height]
  · show ((wrap_text (fun _ => 0) max_text_width "A").length : ℚ) * line_height = 246 / 5
    rw [hlines]
    norm_num [line_height, zone_font_size, template_height, card_base_height]

/-- C9 (amended): the ministry badge uses line height
`1.2 × font_size`; its height is the sum of the line heights (number of
lines × line height) **plus 3**; its width is the widest line's measured
width plus 2 × padding (padding 30). -/
theorem ministryBadge_geometry (w : String → ℕ) (maxW : ℕ) (ministry : String) :
    line_height = (12 / 10 : ℚ) * zone_font_size ∧
    (ministryBadge w maxW ministry).lines = wrap_text w maxW ministry ∧
    (ministryBadge w maxW ministry).rectHeight
      = ((ministryBadge w maxW ministry).lines.length : ℚ) * line_height + 3 ∧
    (ministryBadge w maxW ministry).rectWidth
      = (ministryBadge w maxW ministry).lines.foldl (fun acc line => max acc (w line)) 0
        + 2 * ministry_padding := by
  refine ⟨?_, rfl, rfl, ?_⟩
  · show (zone_font_size : ℚ) * (12 / 10) = (12 / 10 : ℚ) * zone_font_size
    ring
  · show (wrap_text w maxW ministry).foldl (fun acc line => max acc (w line)) 0
          + ministry_padding * 2
      = (wrap_text w maxW ministry).foldl (fun acc line => max acc (w line)) 0
          + 2 * ministry_padding
    omega

/-- C10: the volunteers `create_id_card` coerces its name, zone and
ministry inputs to strings with `str()` before any rendering, so
rendering any roster cell value equals rendering its string form; a
numeric name renders as its decimal representation and a NaN ministry
renders as the wrapped text `"nan"`. -/
theorem cardTextLayer_str_coercion (w : String → ℕ) (name zone ministry : PyVal) :
    cardTextLayer w name zone ministry
      = cardTextLayer w (.str (pyStr name)) (.str (pyStr zone)) (.str (pyStr ministry)) ∧
    (cardTextLayer w name zone ministry).nameText = pyStr name ∧
    (cardTextLayer w (.int (-7)) zone ministry).nameText = "-7" ∧
    (cardTextLayer w name zone .nan).ministryLines = wrap_text w max_text_width "nan" := by
  refine ⟨rfl, rfl, ?_, rfl⟩
  show toString (-7 : ℤ) = "-7"
  decide

end IDCardGen
